import Mathlib

/-!
Verification of the fast-export stream parser/emitter of
`thaliaarchi/git-transform-repo` (crate `fast-export`, sources under
`src/fast-export/src/`).

Shallow embedding conventions:
* Byte strings are `List Nat` (each element a byte value `0..255`).
* `u64`/`u32` quantities are `Nat`; the integer parser enforces the bound
  `< 2^64` (resp. `2^32`) exactly where `u64::from_str`/`u32::from_str` does.
* Fallible Rust code returns an explicit result type; Rust panics
  (failed `assert!`, out-of-bounds index, reversed slice, `unreachable!`)
  are modelled by a dedicated `panic` constructor.
* The byte source `R: BufRead` is a pure byte list; `fill_buf` exposes all
  remaining bytes and I/O errors cannot occur, so the `StreamError::Io`
  variant is not modelled.
* Loops whose termination measure is not structural carry an explicit fuel
  argument; every wrapper passes fuel larger than the number of iterations
  the loop can make (each iteration consumes at least one input byte), so
  the fuel-exhausted branch is unreachable.
-/

deriving instance DecidableEq for Except

namespace FE

/-- Byte strings, one `Nat` per byte. -/
abbrev Bytes := List Nat

/-- ASCII bytes of a Lean string literal (used only for ASCII data). -/
def bytesOfAscii (s : String) : Bytes := s.data.map Char.toNat

/-- Rust `slice::strip_prefix`: `some` of the tail when `pfx` is a prefix. -/
def dropPfx (pfx l : Bytes) : Option Bytes :=
  if pfx.isPrefixOf l then some (l.drop pfx.length) else none

/-- `memchr::memchr`: index of the first occurrence of `a`. -/
def memchr (a : Nat) : Bytes → Option Nat
  | [] => none
  | c :: rest => if c = a then some 0 else (memchr a rest).map (· + 1)

/-- `memchr::memchr2`: index of the first occurrence of `a` or `b`. -/
def memchr2 (a b : Nat) : Bytes → Option Nat
  | [] => none
  | c :: rest => if c = a ∨ c = b then some 0 else (memchr2 a b rest).map (· + 1)

/-- Rust slice indexing `s[i]`: panics when out of bounds. -/
inductive PanicOr (α : Type) where
  | ok (a : α)
  | panic
deriving DecidableEq

/-- Rust `s[i]` (byte indexing). -/
def getIdx (s : Bytes) (i : Nat) : PanicOr Nat :=
  match s.get? i with
  | some b => .ok b
  | none => .panic

/-- Rust range slicing `&s[i..j]`: panics when `i > j` or `j > s.len()`. -/
def sliceIdx (s : Bytes) (i j : Nat) : PanicOr Bytes :=
  if i ≤ j ∧ j ≤ s.length then .ok ((s.drop i).take (j - i)) else .panic

/-! ## Reference-name validation (`src/fast-export/src/refs.rs`) -/

/-- `RefnameFlag` bit flags (refs.rs:23-33). -/
structure RefnameFlags where
  allowOneLevel : Bool
  refspecPattern : Bool
deriving DecidableEq

/-- `RefnameError` (refs.rs:39-89). -/
inductive RefnameError where
  | Empty | StartsWithSlash | EndsWithSlash | SlashSlash | OnlyOneLevel
  | ComponentIsDot | ComponentStartsWithDot | EndsWithDot | DotDot
  | Asterisk | MultipleAsterisks
  | ControlChar | Space | Colon | Question | OpenBracket | Backslash
  | Caret | Tilde
  | IsAt | AtBrace
  | ComponentEndsWithDotLock
deriving DecidableEq

/-- The forbidden-byte arms of the component scan (refs.rs:182-190). -/
def forbiddenByteErr (ch : Nat) : Option RefnameError :=
  if ch ≤ 0x1f ∨ ch = 0x7f then some .ControlChar
  else if ch = 32 then some .Space
  else if ch = 58 then some .Colon
  else if ch = 63 then some .Question
  else if ch = 91 then some .OpenBracket
  else if ch = 92 then some .Backslash
  else if ch = 94 then some .Caret
  else if ch = 126 then some .Tilde
  else none

/-- The per-byte scan loop of `check_refname_component` (refs.rs:178-218).
Returns the component length (bytes before a `/`, or all bytes) together
with the updated `allow_asterisk` flag. `last` is the previously seen byte
(`0` at the start of a component, as in the source). -/
def scanComponent (flags : RefnameFlags) :
    Bytes → Bool → Nat → Except RefnameError (Nat × Bool)
  | [], allow, _ => .ok (0, allow)
  | ch :: rest, allow, last =>
    match forbiddenByteErr ch with
    | some e => .error e
    | none =>
      if ch = 42 then
        if allow then
          match scanComponent flags rest false ch with
          | .ok (n, a) => .ok (n + 1, a)
          | .error e => .error e
        else if flags.refspecPattern then .error .MultipleAsterisks
        else .error .Asterisk
      else if ch = 46 ∧ last = 46 then .error .DotDot
      else if ch = 123 ∧ last = 64 then .error .AtBrace
      else if ch = 47 then .ok (0, allow)
      else
        match scanComponent flags rest allow ch with
        | .ok (n, a) => .ok (n + 1, a)
        | .error e => .error e

/-- `check_refname_component` (refs.rs:172-235): scan one component, then
apply the dot and `.lock` checks to it. -/
def checkRefnameComponent (flags : RefnameFlags) (refname : Bytes)
    (allow : Bool) : Except RefnameError (Nat × Bool) :=
  match scanComponent flags refname allow 0 with
  | .error e => .error e
  | .ok (len, a) =>
    if len ≠ 0 then
      let component := refname.take len
      if component.head? = some 46 then
        if len = 1 then .error .ComponentIsDot
        else .error .ComponentStartsWithDot
      else if (bytesOfAscii ".lock").isSuffixOf component then
        .error .ComponentEndsWithDotLock
      else .ok (len, a)
    else .ok (len, a)

/-- The component loop of `Refname::check_format` (refs.rs:132-151) plus the
trailing checks (refs.rs:153-159), with explicit fuel. Each iteration
consumes `len + 1 ≥ 1` bytes of `rest`, so fuel `rest.length + 1` always
suffices and the fuel-exhausted arm is unreachable. -/
def checkFormatLoop (flags : RefnameFlags) (refname : Bytes) :
    Nat → Bytes → Bool → Nat → Except RefnameError Unit
  | 0, _, _, _ => .error .Empty
  | fuel + 1, rest, allow, count =>
    match checkRefnameComponent flags rest allow with
    | .error e => .error e
    | .ok (len, a) =>
      if len = 0 then
        if refname = [] then .error .Empty
        else if count = 0 then .error .StartsWithSlash
        else if rest = [] then .error .EndsWithSlash
        else .error .SlashSlash
      else if len = rest.length then
        if refname.getLast? = some 46 then .error .EndsWithDot
        else if ¬flags.allowOneLevel ∧ count + 1 < 2 then .error .OnlyOneLevel
        else .ok ()
      else checkFormatLoop flags refname fuel (rest.drop (len + 1)) a (count + 1)

/-- `Refname::check_format` (refs.rs:125-160). `allow_asterisk` starts as the
refspec-pattern flag. -/
def checkFormat (refname : Bytes) (flags : RefnameFlags) :
    Except RefnameError Unit :=
  if refname = [64] then .error .IsAt
  else checkFormatLoop flags refname (refname.length + 1) refname
    flags.refspecPattern 0

/-! ## Error types (`src/fast-export/src/parse/{parser,quote,data}.rs`) -/

/-- `ParseStringError` (quote.rs:7-16). -/
inductive ParseStringError where
  | Unterminated | InvalidEscape | InvalidOctalDigit | OctalOverflow
deriving DecidableEq

/-- `ParseError` (parser.rs:79-199). -/
inductive ParseError where
  | ExpectedBlobData | ExpectedCommitCommitter | ExpectedCommitMessage
  | ExpectedTagFrom | ExpectedTagMessage | ExpectedAliasMark | ExpectedAliasTo
  | BranchContainsNul | IdentContainsNul | EncodingContainsNul
  | DataDelimContainsNul | TagContainsNul | PathContainsNul
  | RewriteSubmodulesContainsNul
  | InvalidModeInt | InvalidMode | NoSpaceAfterMode | NoSpaceAfterDataRef
  | JunkAfterFileModifyPath | JunkAfterFileDeletePath | NoSpaceAfterSource
  | MissingDest | JunkAfterDest
  | IdentNoLtOrGt | IdentNoLtBeforeGt | IdentNoGtAfterLt
  | IdentNoSpaceBeforeLt | IdentNoSpaceAfterGt
  | MarkMissingColon | InvalidMark | ZeroMark
  | InvalidDataLength | DataUnexpectedEof | EmptyDelim | UnterminatedData
  | MissingLsRoot | MissingLsPath | LsPathString (e : ParseStringError)
  | JunkAfterLsPath
  | InvalidDateFormat | RewriteSubmodulesNoColon
  | UnsupportedGitOption | InvalidOptionFileSize | InvalidOptionInt
  | UnrecognizedCommand | UnexpectedBlank
deriving DecidableEq

/-- `DataReaderError` (data.rs:55-67). -/
inductive DataReaderError where
  | AlreadyOpened | Unfinished | Closed
deriving DecidableEq

/-- `StreamError` (parser.rs:71-75). The `Io` variant cannot arise over the
modelled in-memory byte source and is omitted. -/
inductive StreamError where
  | parse (e : ParseError)
  | dataReader (e : DataReaderError)
deriving DecidableEq

/-- Outcome of fallible parser code: `PResult` plus the possibility of a Rust
panic. -/
inductive POut (α : Type) where
  | ok (a : α)
  | err (e : StreamError)
  | panic
deriving DecidableEq

/-- Map over the `ok` value. -/
def POut.map (f : α → β) : POut α → POut β
  | .ok a => .ok (f a)
  | .err e => .err e
  | .panic => .panic

/-! ## C-style string unquoting (`src/fast-export/src/parse/quote.rs`)

The result of `BufPool::unquote_c_style_string`: the unquoted bytes and the
unconsumed remainder, a `ParseStringError`, or a panic. -/

inductive UnqRes where
  | ok (unquoted rest : Bytes)
  | err (e : ParseStringError)
  | panic
deriving DecidableEq

/-- The escape-processing loop of `unquote_c_style_string` (quote.rs:36-81).
`i` and `j` are as in the source; `buf` is the auxiliary buffer. As in the
source, at the end of an iteration `j` is reassigned the index returned by
`memchr2` over `&s[i..]`, which is relative to `i`, yet it is used as an
absolute index into `s`. The fuel-exhausted arm is unreachable: on every
input the first iteration returns or panics (see `c5_unquote_never_ok`). -/
def unquoteLoop (s : Bytes) : Nat → Nat → Nat → Bytes → UnqRes
  | 0, _, _, _ => .panic
  | fuel + 1, i, j, buf =>
    match sliceIdx s i j with
    | .panic => .panic
    | .ok seg =>
      let buf := buf ++ seg
      match getIdx s j with
      | .panic => .panic
      | .ok ch =>
        if ch = 34 then .ok buf (s.drop (j + 1))
        else if ch = 92 then
          let j := j + 1
          if j ≥ s.length then .err .Unterminated
          else
            match getIdx s j with
            | .panic => .panic
            | .ok e =>
              let esc : Except ParseStringError (Nat × Nat) :=
                if e = 97 then .ok (0x07, j)
                else if e = 98 then .ok (0x08, j)
                else if e = 102 then .ok (0x0c, j)
                else if e = 110 then .ok (10, j)
                else if e = 114 then .ok (13, j)
                else if e = 116 then .ok (9, j)
                else if e = 118 then .ok (0x0b, j)
                else if e = 92 ∨ e = 34 then .ok (e, j)
                else if 48 ≤ e ∧ e ≤ 51 then
                  let j := j + 2
                  if j ≥ s.length then .error .Unterminated
                  else
                    -- `j < s.length`, so `s[j - 1]` and `s[j]` are in bounds
                    let o2 := s.getD (j - 1) 0
                    let o3 := s.getD j 0
                    if (48 ≤ o2 ∧ o2 ≤ 55) ∧ (48 ≤ o3 ∧ o3 ≤ 55) then
                      .ok ((e - 48) * 64 + (o2 - 48) * 8 + (o3 - 48), j)
                    else .error .InvalidOctalDigit
                else if 52 ≤ e ∧ e ≤ 55 then .error .OctalOverflow
                else .error .InvalidEscape
              match esc with
              | .error err => .err err
              | .ok (ch, j) =>
                let buf := buf ++ [ch]
                let i := j + 1
                match memchr2 34 92 (s.drop i) with
                | none => .err .Unterminated
                | some j => unquoteLoop s fuel i j buf
        else .panic

/-- `BufPool::unquote_c_style_string` (quote.rs:23-82). The `assert!` on the
opening quote, out-of-bounds indexing, and reversed slices are modelled as
`panic`; the `unreachable!` arm of the loop likewise. Note the source binds
`j` to the index returned by `memchr2` over `&s[i..]` — an index relative to
`i = 1` — and then uses it as an absolute index into `s`. -/
def unquoteCStyleString (s : Bytes) : UnqRes :=
  match getIdx s 0 with
  | .panic => .panic
  | .ok c0 =>
    if c0 ≠ 34 then .panic
    else
      match memchr2 34 92 (s.drop 1) with
      | none => .err .Unterminated
      | some j =>
        match getIdx s j with
        | .panic => .panic
        | .ok cj =>
          if cj = 34 then
            match sliceIdx s 1 j with
            | .panic => .panic
            | .ok u => .ok u (s.drop (j + 1))
          else unquoteLoop s (s.length + 1) 1 j []

/-! ## Commit file-change path unquoting (`src/fast-export/src/parse/commit.rs`) -/

/-- `split_at_space` (commit.rs:253-258). -/
def splitAtSpace (b : Bytes) : Option (Bytes × Bytes) :=
  match memchr 32 b with
  | some i => some (b.take i, b.drop (i + 1))
  | none => none

/-- `ChangeIter::unquote_eol` (commit.rs:195-207): `none` when the quoted
string is followed by junk; a failed unquote falls back to the raw bytes. -/
def unquoteEol (s : Bytes) : PanicOr (Option Bytes) :=
  match unquoteCStyleString s with
  | .ok u rest => if rest ≠ [] then .ok none else .ok (some u)
  | .err _ => .ok (some s)
  | .panic => .panic

/-- `ChangeIter::unquote_space` (commit.rs:181-192): `none` when the quoted
string is not followed by a space; a failed unquote falls back to
`split_at_space`. -/
def unquoteSpace (s : Bytes) : PanicOr (Option (Bytes × Bytes)) :=
  match unquoteCStyleString s with
  | .ok u rest =>
    if rest.head? = some 32 then .ok (some (u, rest.drop 1)) else .ok none
  | .err _ => .ok (splitAtSpace s)
  | .panic => .panic

/-- `ChangeIter::parse_file_delete` (commit.rs:121-126), the path-operand part:
the parsed path of a `D` change. -/
def parseFileDelete (path : Bytes) : POut Bytes :=
  match unquoteEol path with
  | .ok (some p) => .ok p
  | .ok none => .err (.parse .JunkAfterFileDeletePath)
  | .panic => .panic

/-! ## Data model (`src/fast-export/src/command.rs`) -/

/-- `DataHeader` (command.rs:354-361). -/
inductive DataHeader where
  | counted (len : Nat)
  | delimited (delim : Bytes)
deriving DecidableEq

/-- `PersonIdent` (command.rs:341-346). -/
structure Ident where
  name : Bytes
  email : Bytes
  date : Bytes
deriving DecidableEq

/-- `Objectish` (command.rs:317-321). `Commitish` (command.rs:324-326) is a
transparent wrapper around it and is modelled by the same type. -/
inductive Objectish where
  | mark (mark : Nat)
  | branchOrOid (value : Bytes)
deriving DecidableEq

/-- `Blobish` (command.rs:329-332). -/
inductive Blobish where
  | mark (mark : Nat)
  | oid (oid : Bytes)
deriving DecidableEq

/-- `Treeish` (command.rs:335-338). -/
inductive Treeish where
  | mark (mark : Nat)
  | oid (oid : Bytes)
deriving DecidableEq

/-- `DateFormat` (command.rs:187-192). -/
inductive DateFormat where
  | raw | rawPermissive | rfc2822 | now
deriving DecidableEq

/-- `Feature` (command.rs:141-173). -/
inductive Feature where
  | dateFormat (format : DateFormat)
  | importMarks (path : Bytes) (ignoreMissing : Bool)
  | exportMarks (path : Bytes)
  | alias
  | rewriteSubmodulesTo (submoduleName marksPath : Bytes)
  | rewriteSubmodulesFrom (submoduleName marksPath : Bytes)
  | getMark
  | catBlob
  | relativeMarks (relative : Bool)
  | done | force | notes | ls
  | other (feature : Bytes)
deriving DecidableEq

/-- `UnitFactor` (command.rs:415-420). -/
inductive UnitFactor where
  | B | K | M | G
deriving DecidableEq

/-- `FileSize` (command.rs:409-412); the value is a `u32`. -/
structure FileSize where
  value : Nat
  unit : UnitFactor
deriving DecidableEq

/-- `OptionGit` (command.rs:206-215). -/
inductive OptionGit where
  | maxPackSize (size : FileSize)
  | bigFileThreshold (size : FileSize)
  | depth (depth : Nat)
  | activeBranches (count : Nat)
  | exportPackEdges (path : Bytes)
  | quiet | stats | allowUnsafeFeatures
deriving DecidableEq

/-- `OptionCommand` (command.rs:200-203). -/
inductive OptionCmd where
  | git (o : OptionGit)
  | other (option : Bytes)
deriving DecidableEq

/-- `Command` (command.rs:18-32). The `Blob` variant keeps the parsed fields;
the data-stream handle lives in the parser state. `done true` is
`Done::Explicit`, `done false` is `Done::Eof`. -/
inductive Command where
  | blob (mark : Option Nat) (originalOid : Option Bytes) (header : DataHeader)
  | commit (branch : Bytes) (mark : Option Nat) (originalOid : Option Bytes)
      (author : Option Ident) (committer : Ident) (encoding : Option Bytes)
      (message : Bytes) (fromRef : Option Objectish) (merge : List Objectish)
  | tag (name : Bytes) (mark : Option Nat) (fromRef : Objectish)
      (originalOid : Option Bytes) (tagger : Option Ident) (message : Bytes)
  | reset (branch : Bytes) (fromRef : Option Objectish)
  | ls (root : Treeish) (path : Bytes)
  | catBlob (blob : Blobish)
  | getMark (mark : Nat)
  | checkpoint
  | done (explicit : Bool)
  | alias (mark : Nat) (toRef : Objectish)
  | progress (message : Bytes)
  | feature (f : Feature)
  | option (o : OptionCmd)
deriving DecidableEq

/-- Whether a command is a `Blob`. -/
def Command.isBlob : Command → Bool
  | .blob .. => true
  | _ => false

/-! ## Integer and value parsing (`src/fast-export/src/parse/parser.rs`) -/

/-- ASCII decimal digit. -/
def isDigit (b : Nat) : Bool := Nat.ble 48 b && Nat.ble b 57

/-- Value of a decimal digit string. -/
def digitsVal (b : Bytes) : Nat := b.foldl (fun acc d => acc * 10 + (d - 48)) 0

/-- `parse_int::<T>` (parser.rs:804-814): a leading `+` is rejected
explicitly, then `T::from_str` accepts exactly the nonempty all-digit
strings whose value is below `bound` (`2^64` for `u64`, `2^32` for `u32`);
`from_str` itself would also accept a leading `+`, but that was already
rejected. -/
def parseIntU (bound : Nat) (b : Bytes) : Option Nat :=
  if b.head? = some 43 then none
  else if b ≠ [] ∧ b.all isDigit then
    if digitsVal b < bound then some (digitsVal b) else none
  else none

/-- `Mark::parse` (parser.rs:487-494) combined with `Mark::new`
(command.rs:263-265): `NonZeroU64::new` makes `:0` fail with `ZeroMark`. -/
def markParse (mark : Bytes) : POut Nat :=
  match mark with
  | 58 :: rest =>
    match parseIntU (2 ^ 64) rest with
    | none => .err (.parse .InvalidMark)
    | some v => if v = 0 then .err (.parse .ZeroMark) else .ok v
  | _ => .err (.parse .MarkMissingColon)

/-- `Branch::parse` (parser.rs:457-464). -/
def branchParse (branch : Bytes) : POut Bytes :=
  if branch.contains 0 then .err (.parse .BranchContainsNul) else .ok branch

/-- `TagName::parse` (parser.rs:469-474). -/
def tagNameParse (name : Bytes) : POut Bytes :=
  if name.contains 0 then .err (.parse .TagContainsNul) else .ok name

/-- `OriginalOid::parse` (parser.rs:500-502). -/
def originalOidParse (oid : Bytes) : POut Bytes := .ok oid

/-- `Objectish::parse` (parser.rs:507-514). -/
def objectishParse (objectish : Bytes) : POut Objectish :=
  if objectish.head? = some 58 then (markParse objectish).map .mark
  else .ok (.branchOrOid objectish)

/-- `Commitish::parse` (parser.rs:519-524): delegates to `Objectish::parse`. -/
def commitishParse (commitish : Bytes) : POut Objectish :=
  objectishParse commitish

/-- `Blobish::parse` (parser.rs:529-536). -/
def blobishParse (blobish : Bytes) : POut Blobish :=
  if blobish.head? = some 58 then (markParse blobish).map .mark
  else .ok (.oid blobish)

/-- `Treeish::parse` (parser.rs:541-548). -/
def treeishParse (treeish : Bytes) : POut Treeish :=
  if treeish.head? = some 58 then (markParse treeish).map .mark
  else .ok (.oid treeish)

/-- `PersonIdent::parse` (parser.rs:553-592). `lt` is the index of the first
`<` or `>`; `gt` that of the next one after `lt`. The name is
`ident[..lt.saturating_sub(2)]`, the email `ident[lt + 1..gt - 1]` (which
panics as a reversed range when the email is empty, i.e. `gt = lt + 1`),
and the date `ident[(gt + 2).min(ident.len())..]`. -/
def personIdentParse (ident : Bytes) : POut Ident :=
  if ident.contains 0 then .err (.parse .IdentContainsNul)
  else
    match memchr2 60 62 ident with
    | none => .err (.parse .IdentNoLtOrGt)
    | some lt =>
      if ident.getD lt 0 ≠ 60 then .err (.parse .IdentNoLtBeforeGt)
      else if lt ≠ 0 ∧ ident.getD (lt - 1) 0 ≠ 32 then
        .err (.parse .IdentNoSpaceBeforeLt)
      else
        match memchr2 60 62 (ident.drop (lt + 1)) with
        | none => .err (.parse .IdentNoGtAfterLt)
        | some g =>
          let gt := lt + 1 + g
          if ident.getD gt 0 ≠ 62 then .err (.parse .IdentNoGtAfterLt)
          else if gt + 1 ≥ ident.length ∨ ident.getD (gt + 1) 0 ≠ 32 then
            .err (.parse .IdentNoSpaceAfterGt)
          else
            match sliceIdx ident (lt + 1) (gt - 1) with
            | .panic => .panic
            | .ok email =>
              .ok ⟨ident.take (lt - 2), email,
                ident.drop (min (gt + 2) ident.length)⟩

/-- `Encoding::parse` (parser.rs:598-603). -/
def encodingParse (encoding : Bytes) : POut Bytes :=
  if encoding.contains 0 then .err (.parse .EncodingContainsNul)
  else .ok encoding

/-- `DataHeader::parse` (parser.rs:612-624). -/
def dataHeaderParse (arg : Bytes) : POut DataHeader :=
  match dropPfx [60, 60] arg with
  | some delim =>
    if delim = [] then .err (.parse .EmptyDelim)
    else if delim.contains 0 then .err (.parse .DataDelimContainsNul)
    else .ok (.delimited delim)
  | none =>
    match parseIntU (2 ^ 64) arg with
    | none => .err (.parse .InvalidDataLength)
    | some len => .ok (.counted len)

/-- `DateFormat::parse` (parser.rs:686-694). -/
def dateFormatParse (format : Bytes) : POut DateFormat :=
  if format = bytesOfAscii "raw" then .ok .raw
  else if format = bytesOfAscii "raw-permissive" then .ok .rawPermissive
  else if format = bytesOfAscii "rfc2822" then .ok .rfc2822
  else if format = bytesOfAscii "now" then .ok .now
  else .err (.parse .InvalidDateFormat)

/-- `FastImportPath::parse` (parser.rs:699-705). -/
def fastImportPathParse (path : Bytes) : POut Bytes :=
  if path.contains 0 then .err (.parse .PathContainsNul) else .ok path

/-- `parse_rewrite_submodules` (parser.rs:743-753). As in the source,
`split_at(colon)` leaves the `:` at the front of the marks path. -/
def parseRewriteSubmodules (args : Bytes) : POut (Bytes × Bytes) :=
  if args.contains 0 then .err (.parse .RewriteSubmodulesContainsNul)
  else
    match memchr 58 args with
    | none => .err (.parse .RewriteSubmodulesNoColon)
    | some colon => .ok (args.take colon, args.drop colon)

/-- `Feature::parse` (parser.rs:629-681). -/
def featureParse (feature : Bytes) : POut Feature :=
  match dropPfx (bytesOfAscii "date-format=") feature with
  | some format => (dateFormatParse format).map .dateFormat
  | none =>
  match dropPfx (bytesOfAscii "import-marks=") feature with
  | some path =>
    (fastImportPathParse path).map fun p => .importMarks p false
  | none =>
  match dropPfx (bytesOfAscii "import-marks-if-exists=") feature with
  | some path =>
    (fastImportPathParse path).map fun p => .importMarks p true
  | none =>
  match dropPfx (bytesOfAscii "export-marks=") feature with
  | some path => (fastImportPathParse path).map .exportMarks
  | none =>
  if feature = bytesOfAscii "alias" then .ok .alias
  else
  match dropPfx (bytesOfAscii "rewrite-submodules-to=") feature with
  | some args =>
    (parseRewriteSubmodules args).map fun np => .rewriteSubmodulesTo np.1 np.2
  | none =>
  match dropPfx (bytesOfAscii "rewrite-submodules-from=") feature with
  | some args =>
    (parseRewriteSubmodules args).map fun np => .rewriteSubmodulesFrom np.1 np.2
  | none =>
  if feature = bytesOfAscii "get-mark" then .ok .getMark
  else if feature = bytesOfAscii "cat-blob" then .ok .catBlob
  else if feature = bytesOfAscii "relative-marks" then .ok (.relativeMarks true)
  else if feature = bytesOfAscii "no-relative-marks" then
    .ok (.relativeMarks false)
  else if feature = bytesOfAscii "done" then .ok .done
  else if feature = bytesOfAscii "force" then .ok .force
  else if feature = bytesOfAscii "notes" then .ok .notes
  else if feature = bytesOfAscii "ls" then .ok .ls
  else .ok (.other feature)

/-- `FileSize::parse` (parser.rs:789-800): strip a case-insensitive
`k`/`m`/`g` suffix, then `parse_int::<u32>`. -/
def fileSizeParse (size : Bytes) : POut FileSize :=
  let vu : Bytes × UnitFactor :=
    match size.getLast? with
    | some 107 => (size.dropLast, .K)
    | some 75 => (size.dropLast, .K)
    | some 109 => (size.dropLast, .M)
    | some 77 => (size.dropLast, .M)
    | some 103 => (size.dropLast, .G)
    | some 71 => (size.dropLast, .G)
    | _ => (size, .B)
  match parseIntU (2 ^ 32) vu.1 with
  | none => .err (.parse .InvalidOptionFileSize)
  | some v => .ok ⟨v, vu.2⟩

/-- `OptionGit::parse` (parser.rs:757-785). Note the final arm returns
`ParseError::UnrecognizedCommand` (parser.rs:783), not
`ParseError::UnsupportedGitOption`. -/
def optionGitParse (option : Bytes) : POut OptionGit :=
  match dropPfx (bytesOfAscii "max-pack-size=") option with
  | some size => (fileSizeParse size).map .maxPackSize
  | none =>
  match dropPfx (bytesOfAscii "big-file-threshold=") option with
  | some size => (fileSizeParse size).map .bigFileThreshold
  | none =>
  match dropPfx (bytesOfAscii "depth=") option with
  | some depth =>
    match parseIntU (2 ^ 32) depth with
    | none => .err (.parse .InvalidOptionInt)
    | some d => .ok (.depth d)
  | none =>
  match dropPfx (bytesOfAscii "active-branches=") option with
  | some count =>
    match parseIntU (2 ^ 32) count with
    | none => .err (.parse .InvalidOptionInt)
    | some c => .ok (.activeBranches c)
  | none =>
  match dropPfx (bytesOfAscii "export-pack-edges=") option with
  | some path => .ok (.exportPackEdges path)
  | none =>
  if option = bytesOfAscii "quiet" then .ok .quiet
  else if option = bytesOfAscii "stats" then .ok .stats
  else if option = bytesOfAscii "allow-unsafe-features" then
    .ok .allowUnsafeFeatures
  else .err (.parse .UnrecognizedCommand)

/-- `Parser::parse_option` (parser.rs:406-413): `option git OPT` dispatches to
`OptionGit::parse`; any other option is an opaque `OptionOther`. -/
def parseOptionArg (option : Bytes) : POut Command :=
  match dropPfx (bytesOfAscii "git ") option with
  | some git => (optionGitParse git).map fun o => .option (.git o)
  | none => .ok (.option (.other option))

/-- The shared tail of `parse_ls` (parser.rs:727-739): empty-path check and
optional unquote of a quoted path. -/
def lsUnquotePath (root : Option Treeish) (path : Bytes) :
    POut (Option Treeish × Bytes) :=
  if path = [] then .err (.parse .MissingLsPath)
  else if path.head? = some 34 then
    match unquoteCStyleString path with
    | .ok u rest =>
      if rest ≠ [] then .err (.parse .JunkAfterLsPath) else .ok (root, u)
    | .err e => .err (.parse (.LsPathString e))
    | .panic => .panic
  else .ok (root, path)

/-- `parse_ls` (parser.rs:709-740). Returns the optional tree root and the
path. The path of a non-quoted operand retains what `split_at` produced; a
quoted path is unquoted and junk after it is an error. -/
def parseLsArgs (args : Bytes) (inCommit : Bool) :
    POut (Option Treeish × Bytes) :=
  if args = [] then .err (.parse .MissingLsPath)
  else if args.head? = some 34 then
    if ¬inCommit then .err (.parse .MissingLsRoot)
    else lsUnquotePath none args
  else
    match memchr 32 args with
    | none => .err (.parse .MissingLsPath)
    | some i =>
      match treeishParse (args.take i) with
      | .ok root => lsUnquotePath (some root) (args.drop i)
      | .err e => .err e
      | .panic => .panic

/-! ## Emitter (`src/fast-export/src/dump.rs`, `src/fast-export/src/command.rs`) -/

/-- `DelimitedError` (command.rs:370-386). -/
inductive DelimitedError where
  | DelimContainsNul | EmptyDelim | DataContainsDelim | NoFinalLf
deriving DecidableEq

/-- `DataBuf` (command.rs:364-367). -/
structure DataBuf where
  data : Bytes
  delim : Option Bytes
deriving DecidableEq

/-- `DataBuf::validate_delim` (command.rs:389-405). The checks are: empty
delimiter, NUL in the delimiter, final LF on the data, and a data line equal
to the delimiter. (There is no check for NUL in the data itself.) -/
def validateDelim (d : DataBuf) : Except DelimitedError Unit :=
  match d.delim with
  | some delim =>
    if delim = [] then .error .EmptyDelim
    else if delim.contains 0 then .error .DelimContainsNul
    else if d.data.getLast? ≠ some 10 then .error .NoFinalLf
    else if (d.data.splitOn 10).any (fun line => line = delim) then
      .error .DataContainsDelim
    else .ok ()
  | none => .ok ()

/-- Decimal ASCII bytes of a length, as `write!` renders a `usize`. -/
def natDecimal (n : Nat) : Bytes := (Nat.toDigits 10 n).map Char.toNat

/-- `Dump for Data` (dump.rs:70-87): delimited framing when a delimiter is
present and `validate_delim` passes, else counted framing. The second LF
after a delimited payload and the LF after a counted payload are always
written. -/
def dumpData (d : DataBuf) : Bytes :=
  match d.delim with
  | some delim =>
    if validateDelim d = .ok () then
      bytesOfAscii "data <<" ++ delim ++ [10] ++ d.data ++ delim ++ [10, 10]
    else
      bytesOfAscii "data " ++ natDecimal d.data.length ++ [10] ++ d.data ++ [10]
  | none =>
    bytesOfAscii "data " ++ natDecimal d.data.length ++ [10] ++ d.data ++ [10]

/-! ## Input layer (`src/fast-export/src/parse/input.rs`)

`Input` holds the byte source (`r`), the sticky EOF flag, and the line
counter (input.rs:17-24). The source is modelled as the list of bytes not
yet consumed; `fill_buf` exposes all of them at once. -/

structure InputSt where
  r : Bytes
  eof : Bool
  line : Nat
deriving DecidableEq

/-- The state for reading a data stream. `DataSpan`/`DataHeader` is flattened
into the fields `isCounted`, `len` and `delim` (only the fields relevant to
the active variant are meaningful), matching how `Input::read_data` and
`Input::skip_data` consume it (input.rs:152-247); the remaining fields are
those of `DataState` (data.rs:38-51). -/
structure DataState where
  isCounted : Bool
  len : Nat
  delim : Bytes
  finished : Bool
  closed : Bool
  lenRead : Nat
  lineBuf : Bytes
  lineOffset : Nat
deriving DecidableEq

/-- `DataState::new` (data.rs:331-340): a zero-length counted header with
`finished: false`. -/
def DataState.new : DataState := ⟨true, 0, [], false, false, 0, [], 0⟩

/-- `DataState::set` (data.rs:343-349), together with its clearing of the
`data_opened` flag, which is applied at the call site. `line_buf` and
`line_offset` are left untouched, as in the source. `Parser::parse_blob`
calls this as `DataState::init` (parser.rs:275); that method's body is not
among the sources, and per the spec (§5: the flag is "cleared when the
parser initializes the next data-stream state") it is `set`. -/
def DataState.set (s : DataState) (hdr : DataHeader) : DataState :=
  match hdr with
  | .counted len =>
    { s with
      isCounted := true
      len := len
      delim := []
      finished := decide (len = 0)
      closed := false
      lenRead := 0 }
  | .delimited delim =>
    { s with
      isCounted := false
      len := 0
      delim := delim
      finished := false
      closed := false
      lenRead := 0 }

/-- The result of `Input::read_line` (input.rs:96-112): the LF-stripped line
(`none` at EOF with nothing read), the raw bytes appended to the buffer
(line plus LF, when an LF was seen), and the updated input. -/
structure ReadLineOut where
  line : Option Bytes
  raw : Bytes
  inp : InputSt
deriving DecidableEq

/-- `Input::read_line` (input.rs:96-112): read through LF, strip it from the
returned slice (the buffer keeps it), mark EOF when no LF was found, count
the line. The source's `debug_assert!(!self.eof)` is release-mode dead. -/
def readLine (inp : InputSt) : ReadLineOut :=
  match memchr 10 inp.r with
  | some i =>
    ⟨some (inp.r.take i), inp.r.take (i + 1),
      { inp with r := inp.r.drop (i + 1), line := inp.line + 1 }⟩
  | none =>
    if inp.r = [] then ⟨none, [], { inp with eof := true }⟩
    else ⟨some inp.r, inp.r,
      { inp with r := [], eof := true, line := inp.line + 1 }⟩

/-- `Input::skip_optional_lf` (input.rs:251-259): consume one LF if the next
byte is an LF. -/
def skipLf (inp : InputSt) : Bool × InputSt :=
  match inp.r with
  | 10 :: rest => (true, { inp with r := rest })
  | _ => (false, inp)

/-- LF count of a byte string (`count_lf`, input.rs:426-428). -/
def countLf (b : Bytes) : Nat := b.count 10

/-- `Input::read_counted_data_to_end` (input.rs:115-129): read exactly `len`
bytes (`DataUnexpectedEof` if the source ends first), count LFs, then
acknowledge the optional LF. `usize::try_from(len)` always succeeds on the
modelled 64-bit target. -/
def readCountedToEnd (len : Nat) (inp : InputSt) : POut Bytes × InputSt :=
  let n := min len inp.r.length
  let taken := inp.r.take n
  let inp := { inp with r := inp.r.drop n, line := inp.line + countLf taken }
  if n < len then (.err (.parse .DataUnexpectedEof), inp)
  else
    let inp := (skipLf inp).2
    (.ok taken, inp)

/-- The line loop of `Input::read_delimited_data_to_end` (input.rs:137-148).
`acc` is the buffer; the delimiter line is truncated away and the optional
LF acknowledged. Fuel: each iteration consumes at least one byte of `r`, so
`r.length + 2` suffices and the fuel-exhausted arm is unreachable. -/
def readDelimitedToEndLoop (delim : Bytes) :
    Nat → InputSt → Bytes → POut Bytes × InputSt
  | 0, inp, _ => (.panic, inp)
  | fuel + 1, inp, acc =>
    match readLine inp with
    | ⟨none, _, inp⟩ => (.err (.parse .UnterminatedData), inp)
    | ⟨some line, raw, inp⟩ =>
      if line = delim then
        let inp := (skipLf inp).2
        (.ok acc, inp)
      else readDelimitedToEndLoop delim fuel inp (acc ++ raw)

/-- `Input::read_delimited_data_to_end` (input.rs:132-149). -/
def readDelimitedToEnd (delim : Bytes) (inp : InputSt) : POut Bytes × InputSt :=
  readDelimitedToEndLoop delim (inp.r.length + 2) inp []

/-- `BufInput::read_data_to_end` (input.rs:402-408): dispatch on the header. -/
def readDataToEnd (hdr : DataHeader) (inp : InputSt) : POut Bytes × InputSt :=
  match hdr with
  | .counted len => readCountedToEnd len inp
  | .delimited delim => readDelimitedToEnd delim inp

/-- The line-buffer refill step of `Input::read_data` for delimited streams
(input.rs:177-195): when the buffered line is exhausted, clear the buffer
and read the next line; a line equal to the delimiter finishes the stream
(`ok true`); otherwise the buffer is ready for copying (`ok false`). -/
def readDataRefill (inp : InputSt) (s : DataState) :
    POut Bool × InputSt × DataState :=
  if s.lineBuf.length ≤ s.lineOffset then
    if inp.eof then (.err (.parse .UnterminatedData), inp, s)
    else
      let s := { s with lineBuf := [], lineOffset := 0 }
      match readLine inp with
      | ⟨none, raw, inp⟩ =>
        (.err (.parse .UnterminatedData), inp, { s with lineBuf := raw })
      | ⟨some line, raw, inp⟩ =>
        if line = s.delim then
          (.ok true, (skipLf inp).2, { s with lineBuf := raw, finished := true })
        else if raw = [] then
          -- avoid returning `Ok(0)` (input.rs:191-194); unreachable, since a
          -- returned line is never an empty buffer
          (.err (.parse .UnterminatedData), inp, { s with lineBuf := raw })
        else (.ok false, inp, { s with lineBuf := raw })
  else (.ok false, inp, s)

/-- `Input::read_data` (input.rs:152-203) with a destination buffer of size
`n`; returns the bytes read. -/
def readData (n : Nat) (inp : InputSt) (s : DataState) :
    POut Bytes × InputSt × DataState :=
  if s.closed then (.err (.dataReader .Closed), inp, s)
  else if n = 0 ∨ s.finished then (.ok [], inp, s)
  else if s.isCounted then
    if inp.eof then (.err (.parse .DataUnexpectedEof), inp, s)
    else
      let e := min (s.len - s.lenRead) n
      let out := inp.r.take (min e inp.r.length)
      let inp := { inp with r := inp.r.drop out.length }
      let s := { s with lenRead := s.lenRead + out.length }
      let (s, inp) :=
        if s.len ≤ s.lenRead then ({ s with finished := true }, (skipLf inp).2)
        else (s, inp)
      (.ok out, { inp with line := inp.line + countLf out }, s)
  else
    match readDataRefill inp s with
    | (.err e, inp, s) => (.err e, inp, s)
    | (.panic, inp, s) => (.panic, inp, s)
    | (.ok true, inp, s) => (.ok [], inp, s)
    | (.ok false, inp, s) =>
      let off := s.lineOffset
      let m := min (s.lineBuf.length - off) n
      let out := (s.lineBuf.drop off).take m
      (.ok out, inp,
        { s with lineOffset := off + m, lenRead := s.lenRead + m })

/-- The counted loop of `Input::skip_data` (input.rs:215-227): `fill_buf`
exposes all remaining bytes; consume up to the remaining count, error at an
empty source. Fuel: each iteration consumes at least one byte, so
`r.length + 1` suffices and the fuel-exhausted arm is unreachable. -/
def skipCountedLoop : Nat → InputSt → DataState → POut Unit × InputSt × DataState
  | 0, inp, s => (.panic, inp, s)
  | fuel + 1, inp, s =>
    if s.lenRead < s.len then
      if inp.r = [] then
        (.err (.parse .DataUnexpectedEof), { inp with eof := true }, s)
      else
        let n := min (s.len - s.lenRead) inp.r.length
        let inp :=
          { inp with
            line := inp.line + countLf (inp.r.take n)
            r := inp.r.drop n }
        skipCountedLoop fuel inp { s with lenRead := s.lenRead + n }
    else (.ok (), inp, s)

/-- The delimited loop of `Input::skip_data` (input.rs:230-242): read lines
into `line_buf` until one equals the delimiter, adding the raw length of
each skipped line to `len_read`. Fuel as in `skipCountedLoop`. -/
def skipDelimLoop (delim : Bytes) :
    Nat → InputSt → DataState → POut Unit × InputSt × DataState
  | 0, inp, s => (.panic, inp, s)
  | fuel + 1, inp, s =>
    if inp.eof then (.err (.parse .UnterminatedData), inp, s)
    else
      match readLine inp with
      | ⟨none, raw, inp⟩ =>
        (.err (.parse .UnterminatedData), inp, { s with lineBuf := raw })
      | ⟨some line, raw, inp⟩ =>
        let s := { s with lineBuf := raw }
        if line = delim then (.ok (), inp, s)
        else skipDelimLoop delim fuel inp
          { s with lenRead := s.lenRead + raw.length }

/-- `Input::skip_data` (input.rs:206-247): drain the rest of the data stream
without copying; afterwards mark it finished and acknowledge the optional
LF. For a delimited stream, the unread residue of `line_buf` is counted
first (input.rs:229). -/
def skipData (inp : InputSt) (s : DataState) : POut Nat × InputSt × DataState :=
  if s.closed then (.err (.dataReader .Closed), inp, s)
  else if s.finished then (.ok 0, inp, s)
  else
    let startLen := s.lenRead
    let looped :=
      if s.isCounted then skipCountedLoop (inp.r.length + 1) inp s
      else
        let s := { s with lenRead := s.lenRead + (s.lineBuf.length - s.lineOffset) }
        skipDelimLoop s.delim (inp.r.length + 2) inp s
    match looped with
    | (.ok _, inp, s) =>
      let s := { s with finished := true }
      let inp := (skipLf inp).2
      (.ok (s.lenRead - startLen), inp, s)
    | (.err e, inp, s) => (.err e, inp, s)
    | (.panic, inp, s) => (.panic, inp, s)

/-! ## Buffered directive layer (`src/fast-export/src/parse/input.rs`,
`BufInput`) and parser state (`src/fast-export/src/parse/parser.rs`)

The parser state: the input, the single-bit `data_opened` flag, the data
stream state, the one-directive-lookahead `unread` flag, and `poolBack`, the
contents of the most recently pushed `BufPool` buffer (which
`BufInput::peek_directive` returns for an unread directive — including the
trailing LF that `read_until` left in the buffer). -/

structure ParserSt where
  input : InputSt
  poolBack : Bytes
  unread : Bool
  dataOpened : Bool
  dataState : DataState
deriving DecidableEq

/-- `Parser::new` (parser.rs:204-210). -/
def newParser (input : Bytes) : ParserSt :=
  ⟨⟨input, false, 0⟩, [], false, false, DataState.new⟩

/-- The line loop of `BufInput::read_directive` (input.rs:293-305): push a
pool buffer, read a line into it, skip `#` comment lines. Fuel: each
iteration consumes at least one byte, so `r.length + 1` suffices and the
fuel-exhausted arm is unreachable. -/
def readDirectiveLoop : Nat → ParserSt → Option Bytes × ParserSt
  | 0, p => (none, p)
  | fuel + 1, p =>
    if p.input.eof then (none, p)
    else
      match readLine p.input with
      | ⟨none, raw, inp⟩ => (none, { p with input := inp, poolBack := raw })
      | ⟨some line, raw, inp⟩ =>
        let p := { p with input := inp, poolBack := raw }
        if line.head? = some 35 then readDirectiveLoop fuel p
        else (some line, p)

/-- `BufInput::read_directive` (input.rs:293-305). -/
def readDirective (p : ParserSt) : Option Bytes × ParserSt :=
  readDirectiveLoop (p.input.r.length + 1) p

/-- `BufInput::peek_directive` (input.rs:315-326): an unread directive is
returned from the back of the pool (with its trailing LF); otherwise read a
fresh directive and mark it unread when present. -/
def peekDirective (p : ParserSt) : Option Bytes × ParserSt :=
  if p.unread then (some p.poolBack, p)
  else
    match readDirective p with
    | (some line, p) => (some line, { p with unread := true })
    | (none, p) => (none, { p with unread := false })

/-- `BufInput::bump_directive` (input.rs:331-342). -/
def bumpDirective (p : ParserSt) : ParserSt := { p with unread := false }

/-- `BufInput::next_directive` (input.rs:308-312): peek then bump. -/
def nextDirective (p : ParserSt) : Option Bytes × ParserSt :=
  match peekDirective p with
  | (line, p) => (line, bumpDirective p)

/-- `BufInput::unread_directive` (input.rs:347-358). -/
def unreadDirective (p : ParserSt) : ParserSt := { p with unread := true }

/-- `BufInput::skip_optional_lf` (input.rs:412-423): consume an optional LF
and, when one was consumed, push an empty pool buffer. -/
def skipLfBuf (p : ParserSt) : ParserSt :=
  match skipLf p.input with
  | (true, inp) => { p with input := inp, poolBack := [] }
  | (false, inp) => { p with input := inp }

/-- `BufInput::parse_directive` (input.rs:360-372): peek; when the directive
has the given prefix, bump it and parse the remainder; otherwise leave it
for the next caller. -/
def parseDirective (pfx : Bytes) (f : Bytes → POut α) (p : ParserSt) :
    POut (Option α) × ParserSt :=
  match peekDirective p with
  | (some line, p) =>
    match dropPfx pfx line with
    | some arg => ((f arg).map some, bumpDirective p)
    | none => (.ok none, p)
  | (none, p) => (.ok none, p)

/-- The loop of `BufInput::parse_directive_many` (input.rs:374-384). Fuel:
every successful iteration either clears the `unread` flag or consumes at
least one input byte, so `2 * r.length + 2` bounds the iteration count and
the fuel-exhausted arm is unreachable. -/
def parseDirectiveManyLoop (pfx : Bytes) (f : Bytes → POut α) :
    Nat → ParserSt → List α → POut (List α) × ParserSt
  | 0, p, _ => (.panic, p)
  | fuel + 1, p, acc =>
    match parseDirective pfx f p with
    | (.ok (some a), p) => parseDirectiveManyLoop pfx f fuel p (acc ++ [a])
    | (.ok none, p) => (.ok acc, p)
    | (.err e, p) => (.err e, p)
    | (.panic, p) => (.panic, p)

/-- `BufInput::parse_directive_many` (input.rs:374-384). -/
def parseDirectiveMany (pfx : Bytes) (f : Bytes → POut α) (p : ParserSt) :
    POut (List α) × ParserSt :=
  parseDirectiveManyLoop pfx f (2 * p.input.r.length + 2) p []

/-- `BufInput::skip_data` (input.rs:395-398) as seen from the parser state. -/
def skipDataB (p : ParserSt) : POut Nat × ParserSt :=
  match skipData p.input p.dataState with
  | (r, inp, s) => (r, { p with input := inp, dataState := s })

/-- `BufInput::read_data` (input.rs:388-391) as seen from the parser state
(`DataReader::read_next`, data.rs:263-269, delegates here). -/
def readDataB (n : Nat) (p : ParserSt) : POut Bytes × ParserSt :=
  match readData n p.input p.dataState with
  | (r, inp, s) => (r, { p with input := inp, dataState := s })

/-- `DataStream::open` (data.rs:224-233): swap the `data_opened` flag to
`true`; fail with `AlreadyOpened` when it was already set. -/
def openDataStream (p : ParserSt) : POut Unit × ParserSt :=
  if p.dataOpened = false then (.ok (), { p with dataOpened := true })
  else (.err (.dataReader .AlreadyOpened), { p with dataOpened := true })

/-! ## Command parsers (`src/fast-export/src/parse/parser.rs`) -/

/-- Sequencing for stateful parser steps: propagate `err` and `panic`. -/
def pbind (x : POut α × ParserSt) (f : α → ParserSt → POut β × ParserSt) :
    POut β × ParserSt :=
  match x with
  | (.ok a, p) => f a p
  | (.err e, p) => (.err e, p)
  | (.panic, p) => (.panic, p)

/-- Sequencing for a pure parsing step before stateful continuation. -/
def pbindV (x : POut α) (p : ParserSt) (f : α → ParserSt → POut β × ParserSt) :
    POut β × ParserSt :=
  match x with
  | .ok a => f a p
  | .err e => (.err e, p)
  | .panic => (.panic, p)

/-- `Parser::parse_data_small` (parser.rs:420-427): parse a `data` directive
and read its contents into a fresh aux buffer (which becomes the back of the
pool). -/
def parseDataSmall (p : ParserSt) : POut (Option Bytes) × ParserSt :=
  pbind (parseDirective (bytesOfAscii "data ") dataHeaderParse p) fun hdr? p =>
    match hdr? with
    | none => (.ok none, p)
    | some hdr =>
      match readDataToEnd hdr p.input with
      | (.ok msg, inp) => (.ok (some msg), { p with input := inp, poolBack := msg })
      | (.err e, inp) => (.err e, { p with input := inp })
      | (.panic, inp) => (.panic, { p with input := inp })

/-- `Parser::parse_blob` (parser.rs:267-283): optional `mark`, optional
`original-oid`, required `data` header; then initialize the data-stream
state, which clears the `data_opened` flag. -/
def parseBlob (p : ParserSt) : POut Command × ParserSt :=
  pbind (parseDirective (bytesOfAscii "mark ") markParse p) fun mark p =>
  pbind (parseDirective (bytesOfAscii "original-oid ") originalOidParse p)
    fun oid p =>
  pbind (parseDirective (bytesOfAscii "data ") dataHeaderParse p) fun hdr? p =>
  match hdr? with
  | none => (.err (.parse .ExpectedBlobData), p)
  | some hdr =>
    (.ok (.blob mark oid hdr),
      { p with dataState := p.dataState.set hdr, dataOpened := false })

/-- `Parser::parse_commit` (parser.rs:286-313). -/
def parseCommit (branchArg : Bytes) (p : ParserSt) : POut Command × ParserSt :=
  pbindV (branchParse branchArg) p fun branch p =>
  pbind (parseDirective (bytesOfAscii "mark ") markParse p) fun mark p =>
  pbind (parseDirective (bytesOfAscii "original-oid ") originalOidParse p)
    fun oid p =>
  pbind (parseDirective (bytesOfAscii "author ") personIdentParse p)
    fun author p =>
  pbind (parseDirective (bytesOfAscii "committer ") personIdentParse p)
    fun committer? p =>
  match committer? with
  | none => (.err (.parse .ExpectedCommitCommitter), p)
  | some committer =>
  pbind (parseDirective (bytesOfAscii "encoding ") encodingParse p)
    fun encoding p =>
  pbind (parseDataSmall p) fun message? p =>
  match message? with
  | none => (.err (.parse .ExpectedCommitMessage), p)
  | some message =>
  pbind (parseDirective (bytesOfAscii "from ") commitishParse p) fun fromRef p =>
  pbind (parseDirectiveMany (bytesOfAscii "merge ") commitishParse p)
    fun merge p =>
  (.ok (.commit branch mark oid author committer encoding message fromRef merge),
    p)

/-- `Parser::parse_tag` (parser.rs:316-338). -/
def parseTag (nameArg : Bytes) (p : ParserSt) : POut Command × ParserSt :=
  pbindV (tagNameParse nameArg) p fun name p =>
  pbind (parseDirective (bytesOfAscii "mark ") markParse p) fun mark p =>
  pbind (parseDirective (bytesOfAscii "from ") objectishParse p) fun fromRef? p =>
  match fromRef? with
  | none => (.err (.parse .ExpectedTagFrom), p)
  | some fromRef =>
  pbind (parseDirective (bytesOfAscii "original-oid ") originalOidParse p)
    fun oid p =>
  pbind (parseDirective (bytesOfAscii "tagger ") personIdentParse p)
    fun tagger p =>
  pbind (parseDataSmall p) fun message? p =>
  match message? with
  | none => (.err (.parse .ExpectedTagMessage), p)
  | some message => (.ok (.tag name mark fromRef oid tagger message), p)

/-- `Parser::parse_reset` (parser.rs:341-349). -/
def parseReset (branchArg : Bytes) (p : ParserSt) : POut Command × ParserSt :=
  pbindV (branchParse branchArg) p fun branch p =>
  pbind (parseDirective (bytesOfAscii "from ") commitishParse p) fun fromRef p =>
  (.ok (.reset branch fromRef), p)

/-- `Parser::parse_ls` (parser.rs:352-358): the top-level `ls` command, where
the root is mandatory (`root.unwrap()`; a missing root is a panic, though
`parse_ls` with `in_commit = false` never produces one). -/
def parseLsTop (args : Bytes) (p : ParserSt) : POut Command × ParserSt :=
  pbindV (parseLsArgs args false) p fun rp p =>
  match rp.1 with
  | some root => (.ok (.ls root rp.2), p)
  | none => (.panic, p)

/-- `Parser::parse_cat_blob` (parser.rs:361-364). -/
def parseCatBlob (dataRef : Bytes) (p : ParserSt) : POut Command × ParserSt :=
  pbindV (blobishParse dataRef) p fun blob p => (.ok (.catBlob blob), p)

/-- `Parser::parse_get_mark` (parser.rs:367-371). -/
def parseGetMark (mark : Bytes) (p : ParserSt) : POut Command × ParserSt :=
  pbindV (markParse mark) p fun m p => (.ok (.getMark m), p)

/-- `Parser::parse_checkpoint` (parser.rs:374-377). -/
def parseCheckpoint (p : ParserSt) : POut Command × ParserSt :=
  (.ok .checkpoint, skipLfBuf p)

/-- `Parser::parse_alias` (parser.rs:380-392): optional LF first (as in
fast-import.c), then required `mark` and `to`. -/
def parseAlias (p : ParserSt) : POut Command × ParserSt :=
  let p := skipLfBuf p
  pbind (parseDirective (bytesOfAscii "mark ") markParse p) fun mark? p =>
  match mark? with
  | none => (.err (.parse .ExpectedAliasMark), p)
  | some mark =>
  pbind (parseDirective (bytesOfAscii "to ") commitishParse p) fun toRef? p =>
  match toRef? with
  | none => (.err (.parse .ExpectedAliasTo), p)
  | some toRef => (.ok (.alias mark toRef), p)

/-- `Parser::parse_progress` (parser.rs:395-398). -/
def parseProgress (message : Bytes) (p : ParserSt) : POut Command × ParserSt :=
  (.ok (.progress message), skipLfBuf p)

/-- `Parser::parse_feature` (parser.rs:401-403). -/
def parseFeature (feature : Bytes) (p : ParserSt) : POut Command × ParserSt :=
  pbindV (featureParse feature) p fun f p => (.ok (.feature f), p)

/-- `Parser::parse_option` (parser.rs:406-413). -/
def parseOption (option : Bytes) (p : ParserSt) : POut Command × ParserSt :=
  pbindV (parseOptionArg option) p fun c p => (.ok c, p)

/-- The directive-reading and dispatch part of `Parser::next`
(parser.rs:228-263): truncate the context (a pool-recycling operation with
no observable effect on the modelled fields), read one directive (EOF gives
`Done::Eof`), and dispatch on its leading keyword. -/
def nextInner (p : ParserSt) : POut Command × ParserSt :=
  match nextDirective p with
  | (none, p) => (.ok (.done false), p)
  | (some line, p) =>
    if line = bytesOfAscii "blob" then parseBlob p
    else match dropPfx (bytesOfAscii "commit ") line with
    | some branch => parseCommit branch p
    | none =>
    match dropPfx (bytesOfAscii "tag ") line with
    | some name => parseTag name p
    | none =>
    match dropPfx (bytesOfAscii "reset ") line with
    | some branch => parseReset branch p
    | none =>
    match dropPfx (bytesOfAscii "ls ") line with
    | some args => parseLsTop args p
    | none =>
    match dropPfx (bytesOfAscii "cat-blob ") line with
    | some dataRef => parseCatBlob dataRef p
    | none =>
    match dropPfx (bytesOfAscii "get-mark ") line with
    | some mark => parseGetMark mark p
    | none =>
    if line = bytesOfAscii "checkpoint" then parseCheckpoint p
    else if line = bytesOfAscii "done" then (.ok (.done true), p)
    else if line = bytesOfAscii "alias" then parseAlias p
    else match dropPfx (bytesOfAscii "progress ") line with
    | some message => parseProgress message p
    | none =>
    match dropPfx (bytesOfAscii "feature ") line with
    | some feature => parseFeature feature p
    | none =>
    match dropPfx (bytesOfAscii "option ") line with
    | some option => parseOption option p
    | none =>
    if line = [] then (.err (.parse .UnexpectedBlank), p)
    else (.err (.parse .UnrecognizedCommand), p)

/-- `Parser::next` (parser.rs:218-264): when the previous data stream is
unfinished, fail with `Unfinished` if a `DataReader` was opened, else skip
the remainder; then parse the next command. -/
def next (p : ParserSt) : POut Command × ParserSt :=
  if p.dataState.finished then nextInner p
  else if p.dataOpened then (.err (.dataReader .Unfinished), p)
  else
    match skipDataB p with
    | (.ok _, p) => nextInner p
    | (.err e, p) => (.err e, p)
    | (.panic, p) => (.panic, p)

/-! ## Concrete runs used by the witnesses

Scenario 1/3/4 of the spec (§8): a counted blob with mark and original-oid,
whose 14-byte payload is `Hello, world!\n`. -/

/-- The counted-blob stream of spec §8 scenario 1. -/
def blobStream : Bytes :=
  bytesOfAscii "blob\nmark :42\noriginal-oid 3141\ndata 14\nHello, world!\n"

/-- Fresh parser over `blobStream`. -/
def ps0 : ParserSt := newParser blobStream

/-- State after `next` returned the `Blob` command. -/
def ps1 : ParserSt := (next ps0).2

/-- State after opening the blob's data stream (`DataReader` exists). -/
def ps1o : ParserSt := (openDataStream ps1).2

/-- State after reading one payload byte through the `DataReader`
(spec §8 scenario 3/4: a partial read). -/
def ps1r : ParserSt := (readDataB 1 ps1o).2

/-- State after `DataReader::skip_rest` (spec §8 scenario 3). -/
def ps1s : ParserSt := (skipDataB ps1r).2

/-- Whether an unquoting result is a success. -/
def UnqRes.isOk : UnqRes → Bool
  | .ok .. => true
  | _ => false

/-- A parse step result under which any returned `Blob` command leaves the
parser with a cleared `data_opened` flag. -/
def BlobClean (r : POut Command × ParserSt) : Prop :=
  ∀ c p', r = (.ok c, p') → c.isBlob = true → p'.dataOpened = false

/-! ## Theorems -/

/-- C3: `DataBuf::validate_delim` checks the delimiter for emptiness and NUL
and the payload for a final LF and a delimiter line — but not for NUL in the
payload. On `DataBuf { data: b"Hello,\0world!\n", delim: Some(b"EOF") }`
validation therefore passes and the emitter uses delimited framing, although
dump.rs's own test `data_invalid_delim` (dump.rs:156-162) requires the
counted fallback `data 14\nHello,\0world!\n\n` for exactly this value. On
the claim's example `DataBuf { data: b"A\nEOF\nB\n", delim: Some(b"EOF") }`
the payload contains a delimiter line and counted framing is used. -/
theorem c3_dump_delimited_nul :
    validateDelim ⟨bytesOfAscii "Hello," ++ [0] ++ bytesOfAscii "world!\n",
      some (bytesOfAscii "EOF")⟩ = .ok () ∧
    dumpData ⟨bytesOfAscii "Hello," ++ [0] ++ bytesOfAscii "world!\n",
      some (bytesOfAscii "EOF")⟩ =
      bytesOfAscii "data <<EOF\nHello," ++ [0] ++ bytesOfAscii "world!\nEOF\n\n" ∧
    dumpData ⟨bytesOfAscii "A\nEOF\nB\n", some (bytesOfAscii "EOF")⟩ =
      bytesOfAscii "data 8\nA\nEOF\nB\n\n" := by
  refine ⟨by decide, by decide, by decide⟩

/-- C7: `PersonIdent::parse` on the well-formed identity
`Jane Doe <jdoe@example.com> 1234567890 +0000` returns the name and the
email each truncated by one byte (`ident[..lt.saturating_sub(2)]` instead of
`ident[..lt - 1]` and `ident[lt + 1..gt - 1]` instead of
`ident[lt + 1..gt]`), and on an identity with an empty email the reversed
slice `ident[lt + 1..gt - 1]` panics. -/
theorem c7_person_ident_truncated :
    personIdentParse (bytesOfAscii "Jane Doe <jdoe@example.com> 1234567890 +0000") =
      .ok ⟨bytesOfAscii "Jane Do", bytesOfAscii "jdoe@example.co",
        bytesOfAscii "1234567890 +0000"⟩ ∧
    personIdentParse (bytesOfAscii "A <> d") = .panic := by
  refine ⟨by decide, by decide⟩

/-- C10: in commit file-change parsing, a path operand starting with `"` that
unquotes with an error does fall back to the verbatim bytes (`"abc`), and in
commit-`ls` a malformed quoted path surfaces as `LsPathString` — but the
operand `"\` makes `unquote_c_style_string` panic (reversed slice `s[1..0]`)
instead of being taken verbatim, so `unquote_eol`, `unquote_space`, and the
`D` file-change propagate a panic rather than the raw path. -/
theorem c10_change_path_unquote :
    unquoteEol (bytesOfAscii "\"abc") = .ok (some (bytesOfAscii "\"abc")) ∧
    unquoteSpace (bytesOfAscii "\"abc def") =
      .ok (some (bytesOfAscii "\"abc", bytesOfAscii "def")) ∧
    parseLsArgs (bytesOfAscii "\"abc") true =
      .err (.parse (.LsPathString .Unterminated)) ∧
    unquoteEol (bytesOfAscii "\"\\") = .panic ∧
    unquoteSpace ((bytesOfAscii "\"\\") ++ [32] ++ bytesOfAscii "x") = .panic ∧
    parseFileDelete (bytesOfAscii "\"\\") = .panic := by
  refine ⟨by decide, by decide, by decide, by decide, by decide, by decide⟩

/-- C6: a delimited `data` header `data <<D` parses to
`DataHeader::Delimited` exactly when `D` is nonempty and NUL-free; an empty
`D` fails with `EmptyDelim`, a `D` containing NUL fails with
`DataDelimContainsNul`, and every accepted delimited header has a nonempty,
NUL-free delimiter. -/
theorem c6_data_header_delimited :
    (∀ d : Bytes, dataHeaderParse ([60, 60] ++ d) =
      if d = [] then .err (.parse .EmptyDelim)
      else if d.contains 0 then .err (.parse .DataDelimContainsNul)
      else .ok (.delimited d)) ∧
    (∀ arg d, dataHeaderParse arg = .ok (.delimited d) →
      d ≠ [] ∧ d.contains 0 = false) := by
  constructor
  · intro d
    have hpfx : dropPfx [60, 60] ([60, 60] ++ d) = some d := by
      simp [dropPfx]
    unfold dataHeaderParse
    rw [hpfx]
  · intro arg d h
    unfold dataHeaderParse at h
    cases hd : dropPfx [60, 60] arg with
    | some delim =>
      rw [hd] at h
      dsimp only at h
      by_cases h1 : delim = []
      · rw [if_pos h1] at h
        exact POut.noConfusion h
      · rw [if_neg h1] at h
        by_cases h2 : delim.contains 0
        · rw [if_pos h2] at h
          exact POut.noConfusion h
        · rw [if_neg h2] at h
          injection h with h
          injection h with h
          subst h
          exact ⟨h1, by simpa using h2⟩
    | none =>
      rw [hd] at h
      dsimp only at h
      cases hpi : parseIntU (2 ^ 64) arg <;> rw [hpi] at h <;> simp at h

/-- Witness for C6 at the concrete header `data <<EOF`. -/
theorem c6_data_header_delimited_witness :
    bytesOfAscii "EOF" ≠ [] ∧ (bytesOfAscii "EOF").contains 0 = false :=
  c6_data_header_delimited.2 (bytesOfAscii "<<EOF") (bytesOfAscii "EOF")
    (by decide)

/-- C9: `OptionGit::parse` rejects an unrecognized `option git` argument with
`ParseError::UnrecognizedCommand` (parser.rs:783) — not with
`UnsupportedGitOption`, which is declared with the message
"unrecognized 'option git' option" (parser.rs:186-187) but never
constructed — while any `option` directive whose argument does not start
with `git ` succeeds as an opaque `OptionOther` carrying the raw tail, and
recognized git options parse. -/
theorem c9_option_git_error :
    optionGitParse (bytesOfAscii "frobnicate") =
      .err (.parse .UnrecognizedCommand) ∧
    (∀ opt, dropPfx (bytesOfAscii "git ") opt = none →
      parseOptionArg opt = .ok (.option (.other opt))) ∧
    parseOptionArg (bytesOfAscii "git quiet") = .ok (.option (.git .quiet)) := by
  refine ⟨by decide, ?_, by decide⟩
  intro opt h
  unfold parseOptionArg
  rw [h]

/-- Witness for C9 at the concrete directive `option vcs some config`. -/
theorem c9_option_git_error_witness :
    parseOptionArg (bytesOfAscii "vcs some config") =
      .ok (.option (.other (bytesOfAscii "vcs some config"))) :=
  c9_option_git_error.2.1 (bytesOfAscii "vcs some config") (by decide)

/-- Inversion for `getIdx`. -/
theorem getIdx_ok {s : Bytes} {i c : Nat} (h : getIdx s i = .ok c) :
    s.get? i = some c := by
  unfold getIdx at h
  cases hg : s.get? i <;> rw [hg] at h
  · exact PanicOr.noConfusion h
  · injection h with h
    rw [h]

/-- Bytes before the index found by `memchr2` match neither needle. -/
theorem memchr2_before {a b : Nat} :
    ∀ {l : Bytes} {i : Nat}, memchr2 a b l = some i →
      ∀ {k c : Nat}, k < i → l.get? k = some c → ¬(c = a ∨ c = b) := by
  intro l
  induction l with
  | nil =>
    intro i h
    exact Option.noConfusion h
  | cons c0 rest ih =>
    intro i h k c hk hg
    unfold memchr2 at h
    by_cases h0 : c0 = a ∨ c0 = b
    · rw [if_pos h0] at h
      injection h with h
      omega
    · rw [if_neg h0] at h
      cases hm : memchr2 a b rest <;> rw [hm] at h
      · exact Option.noConfusion h
      · simp only [Option.map_some'] at h
        injection h with h
        subst h
        cases k with
        | zero =>
          simp only [List.get?_cons_zero, Option.some.injEq] at hg
          subst hg
          exact h0
        | succ k' =>
          have hg' : rest.get? k' = some c := by simpa using hg
          refine ih hm ?_ hg'
          omega

/-- C5: `unquote_c_style_string` never succeeds: `memchr2` is searched over
`&s[i..]` but its relative index is used as an absolute index into `s`, so
for every input the function panics (failed opening-quote `assert!`,
reversed slice `&s[1..0]`, or the loop's `unreachable!`) or reports
`Unterminated` — never the unquoted bytes. In particular the claim's family
`unquote("\"" + s + "\"") = (s, "")` fails at `s = "a"` (the `unreachable!`
panic), at `s = ""` (the reversed slice), and at the escape `\n` (the
reversed slice); an unterminated, escape-free string still reports
`Unterminated`. -/
theorem c5_unquote_never_succeeds :
    (∀ s, (unquoteCStyleString s).isOk = false) ∧
    unquoteCStyleString (bytesOfAscii "\"a\"") = .panic ∧
    unquoteCStyleString (bytesOfAscii "\"\"") = .panic ∧
    unquoteCStyleString ([34] ++ [92, 110] ++ [34]) = .panic ∧
    unquoteCStyleString (bytesOfAscii "\"abc") = .err .Unterminated := by
  refine ⟨?_, by decide, by decide, by decide, by decide⟩
  intro s
  unfold unquoteCStyleString
  cases hg0 : getIdx s 0 with
  | panic => rfl
  | ok c0 =>
    dsimp only
    by_cases h0 : c0 = 34
    · rw [if_neg (by simp [h0])]
      cases hm : memchr2 34 92 (s.drop 1) with
      | none => rfl
      | some j =>
        dsimp only
        cases hgj : getIdx s j with
        | panic => rfl
        | ok cj =>
          dsimp only
          have hsj := getIdx_ok hgj
          have hs0 := getIdx_ok hg0
          by_cases hj : cj = 34
          · rw [if_pos hj]
            rcases Nat.eq_zero_or_pos j with hj0 | hjpos
            · subst hj0
              unfold sliceIdx
              rw [if_neg (by omega)]
              rfl
            · exfalso
              have hdg : (s.drop 1).get? (j - 1) = some cj := by
                rw [List.get?_eq_getElem?, List.getElem?_drop]
                have h1j : 1 + (j - 1) = j := by omega
                rw [h1j, ← List.get?_eq_getElem?]
                exact hsj
              exact memchr2_before hm (by omega) hdg (Or.inl hj)
          · rw [if_neg hj]
            have hj92 : cj ≠ 92 := by
              intro hcj
              rcases Nat.eq_zero_or_pos j with hj0 | hjpos
              · subst hj0
                rw [hs0] at hsj
                injection hsj with hsj
                exact hj (hsj ▸ h0)
              · have hdg : (s.drop 1).get? (j - 1) = some cj := by
                  rw [List.get?_eq_getElem?, List.getElem?_drop]
                  have h1j : 1 + (j - 1) = j := by omega
                  rw [h1j, ← List.get?_eq_getElem?]
                  exact hsj
                exact memchr2_before hm (by omega) hdg (Or.inr hcj)
            show (unquoteLoop s (s.length + 1) 1 j []).isOk = false
            unfold unquoteLoop
            cases hsl : sliceIdx s 1 j with
            | panic => rfl
            | ok seg =>
              dsimp only
              rw [hgj]
              dsimp only
              rw [if_neg hj, if_neg hj92]
              rfl
    · rw [if_pos h0]
      rfl

/-- A mark not starting with `:` fails with `MarkMissingColon`
(parser.rs:488-490). -/
theorem markParse_no_colon : ∀ {s : Bytes}, s.head? ≠ some 58 →
    markParse s = .err (.parse .MarkMissingColon) := by
  intro s h
  unfold markParse
  split
  · rename_i rest
    simp_all
  · rfl

/-- C8: `Mark::parse` accepts exactly `:` followed by a decimal digit string
whose value lies in `1..=2^64 - 1`: a missing colon fails with
`MarkMissingColon`, `:0` fails with `ZeroMark`,
`:18446744073709551615` is accepted, and every accepted mark value is
strictly positive and below `2^64`. -/
theorem c8_mark_parse :
    (∀ s v, markParse s = .ok v ↔
      ∃ ds, s = 58 :: ds ∧ ds ≠ [] ∧ ds.all isDigit = true ∧
        digitsVal ds = v ∧ 1 ≤ v ∧ v < 2 ^ 64) ∧
    (∀ s : Bytes, s.head? ≠ some 58 →
      markParse s = .err (.parse .MarkMissingColon)) ∧
    markParse (bytesOfAscii ":0") = .err (.parse .ZeroMark) ∧
    markParse (bytesOfAscii ":18446744073709551615") = .ok (2 ^ 64 - 1) := by
  refine ⟨?_, fun s h => markParse_no_colon h, by decide, by decide⟩
  intro s v
  constructor
  · intro h
    unfold markParse at h
    split at h
    · rename_i rest
      cases hpi : parseIntU (2 ^ 64) rest <;> rw [hpi] at h
      · exact POut.noConfusion h
      · rename_i m
        dsimp only at h
        split at h
        · exact POut.noConfusion h
        · rename_i hm0
          injection h with h
          subst h
          unfold parseIntU at hpi
          split at hpi
          · exact Option.noConfusion hpi
          · split at hpi
            · rename_i hinner
              split at hpi
              · rename_i hsize
                injection hpi with hpi
                subst hpi
                exact ⟨rest, rfl, hinner.1, hinner.2, rfl, by omega, hsize⟩
              · exact Option.noConfusion hpi
            · exact Option.noConfusion hpi
    · exact POut.noConfusion h
  · rintro ⟨ds, rfl, hne, hdig, hval, h1, hlt⟩
    have hhead : ds.head? ≠ some 43 := by
      cases ds with
      | nil => simp
      | cons d ds' =>
        have hd : isDigit d = true := by
          have := List.all_eq_true.mp hdig d (by simp)
          exact this
        simp only [List.head?_cons, ne_eq, Option.some.injEq]
        intro hd43
        subst hd43
        simp [isDigit] at hd
    have hpi : parseIntU (2 ^ 64) ds = some v := by
      unfold parseIntU
      rw [if_neg hhead, if_pos ⟨hne, hdig⟩, if_pos (hval ▸ hlt)]
      rw [hval]
    unfold markParse
    dsimp only
    rw [hpi]
    dsimp only
    rw [if_neg (by omega)]

/-- Witness for C8: `:7` parses to `7` through the characterization, and `7`
(no colon) fails with `MarkMissingColon`. -/
theorem c8_mark_parse_witness :
    markParse (bytesOfAscii ":7") = .ok 7 ∧
    markParse (bytesOfAscii "7") = .err (.parse .MarkMissingColon) :=
  ⟨(c8_mark_parse.1 (bytesOfAscii ":7") 7).mpr
      ⟨bytesOfAscii "7", by decide, by decide, by decide, by decide,
        by decide, by decide⟩,
    c8_mark_parse.2.1 (bytesOfAscii "7") (by decide)⟩

/-- A `get?` hit decomposes `drop` at that index. -/
theorem drop_cons_of_get? {l : Bytes} {n x : Nat} (h : l.get? n = some x) :
    l.drop n = x :: l.drop (n + 1) := by
  rw [List.get?_eq_getElem?] at h
  have hlt : n < l.length := by
    by_contra hc
    rw [List.getElem?_eq_none (by omega)] at h
    cases h
  rw [List.drop_eq_getElem_cons hlt]
  rw [List.getElem?_eq_getElem hlt] at h
  injection h with h
  rw [h]

/-- Asterisk accounting for the component scan: a successful scan consumes at
most the whole input, its component holds exactly one `*` per consumed
allowance, and it stops at the end of the input or at a `/`. -/
theorem scanComponent_ok {flags : RefnameFlags} :
    ∀ {bytes : Bytes} {allow : Bool} {last n : Nat} {a : Bool},
      scanComponent flags bytes allow last = .ok (n, a) →
      n ≤ bytes.length ∧
      (bytes.take n).count 42 + (if a then 1 else 0) =
        (if allow then 1 else 0) ∧
      (n = bytes.length ∨ bytes.get? n = some 47) := by
  intro bytes
  induction bytes with
  | nil =>
    intro allow last n a h
    simp only [scanComponent, Except.ok.injEq, Prod.mk.injEq] at h
    obtain ⟨hn, ha⟩ := h
    subst hn
    subst ha
    simp
  | cons ch rest ih =>
    intro allow last n a h
    unfold scanComponent at h
    split at h
    · exact Except.noConfusion h
    · split at h
      · -- ch = 42
        rename_i hch
        split at h
        · -- allow = true
          rename_i hallow
          split at h
          · rename_i n' a' heq
            simp only [Except.ok.injEq, Prod.mk.injEq] at h
            obtain ⟨hn, ha⟩ := h
            subst hn
            subst ha
            obtain ⟨hle, hcnt, hend⟩ := ih heq
            clear ih
            refine ⟨by simp; omega, ?_, ?_⟩
            · subst hch
              simp only [List.take_succ_cons, List.count_cons, hallow]
              cases a' <;> simp_all
            · rcases hend with hend | hend
              · exact Or.inl (by simp [hend])
              · exact Or.inr (by simpa using hend)
          · exact Except.noConfusion h
        · split at h <;> exact Except.noConfusion h
      · -- ch ≠ 42
        rename_i hch42
        split at h
        · exact Except.noConfusion h
        · split at h
          · exact Except.noConfusion h
          · split at h
            · -- ch = 47
              rename_i hch47
              simp only [Except.ok.injEq, Prod.mk.injEq] at h
              obtain ⟨hn, ha⟩ := h
              subst hn
              subst ha
              exact ⟨by simp, by simp, Or.inr (by simp [hch47])⟩
            · split at h
              · rename_i n' a' heq
                simp only [Except.ok.injEq, Prod.mk.injEq] at h
                obtain ⟨hn, ha⟩ := h
                subst hn
                subst ha
                obtain ⟨hle, hcnt, hend⟩ := ih heq
                refine ⟨by simp; omega, ?_, ?_⟩
                · simp only [List.take_succ_cons, List.count_cons]
                  rw [if_neg (by simpa using hch42)]
                  simpa using hcnt
                · rcases hend with hend | hend
                  · exact Or.inl (by simp [hend])
                  · exact Or.inr (by simpa using hend)
              · exact Except.noConfusion h

/-- `check_refname_component` passes the scan's asterisk accounting through
unchanged. -/
theorem checkRefnameComponent_ok {flags : RefnameFlags} {refname : Bytes}
    {allow : Bool} {n : Nat} {a : Bool}
    (h : checkRefnameComponent flags refname allow = .ok (n, a)) :
    n ≤ refname.length ∧
    (refname.take n).count 42 + (if a then 1 else 0) =
      (if allow then 1 else 0) ∧
    (n = refname.length ∨ refname.get? n = some 47) := by
  unfold checkRefnameComponent at h
  cases hscan : scanComponent flags refname allow 0 <;> rw [hscan] at h
  · exact Except.noConfusion h
  · rename_i val
    obtain ⟨len, a0⟩ := val
    dsimp only at h
    split at h
    · split at h
      · split at h <;> exact Except.noConfusion h
      · split at h
        · exact Except.noConfusion h
        · simp only [Except.ok.injEq, Prod.mk.injEq] at h
          obtain ⟨hn, ha⟩ := h
          subst hn
          subst ha
          exact scanComponent_ok hscan
    · simp only [Except.ok.injEq, Prod.mk.injEq] at h
      obtain ⟨hn, ha⟩ := h
      subst hn
      subst ha
      exact scanComponent_ok hscan

/-- A successful `check_format` loop run admits at most one asterisk in the
remaining refname when the allowance is available, and none otherwise. -/
theorem checkFormatLoop_count {flags : RefnameFlags} {refname : Bytes} :
    ∀ (fuel : Nat) (rest : Bytes) (allow : Bool) (count : Nat),
      checkFormatLoop flags refname fuel rest allow count = .ok () →
      rest.count 42 ≤ (if allow then 1 else 0) := by
  intro fuel
  induction fuel with
  | zero =>
    intro rest allow count h
    exact Except.noConfusion h
  | succ fuel ih =>
    intro rest allow count h
    unfold checkFormatLoop at h
    cases hc : checkRefnameComponent flags rest allow <;> rw [hc] at h
    · exact Except.noConfusion h
    · rename_i la
      obtain ⟨len, a⟩ := la
      dsimp only at h
      obtain ⟨hle, hcnt, hend⟩ := checkRefnameComponent_ok hc
      split at h
      · split at h <;> first
          | exact Except.noConfusion h
          | (split at h <;> first
              | exact Except.noConfusion h
              | (split at h <;> exact Except.noConfusion h))
      · split at h
        · -- break: len = rest.length
          rename_i hlen0 hlen
          have htake : rest.take len = rest := by
            rw [hlen]
            exact List.take_length rest
          rw [htake] at hcnt
          omega
        · -- continue with the next component
          rename_i hlen0 hlen
          have h47 : rest.get? len = some 47 := by
            rcases hend with hend | hend
            · exact absurd hend hlen
            · exact hend
          have hsplit : rest = rest.take len ++ (47 :: rest.drop (len + 1)) := by
            conv_lhs => rw [← List.take_append_drop len rest]
            rw [drop_cons_of_get? h47]
          have hih := ih (rest.drop (len + 1)) a (count + 1) h
          have hcount : rest.count 42 =
              (rest.take len).count 42 + (rest.drop (len + 1)).count 42 := by
            conv_lhs => rw [hsplit]
            simp [List.count_append, List.count_cons]
          cases a <;> cases allow <;> simp at hcnt hih ⊢ <;> omega

/-- C4: the reference-name validator accepts `refs/heads/foo` with no flags,
rejects `foo` with `OnlyOneLevel` unless `AllowOneLevel` is set, accepts
`foo/*` under `RefspecPattern`, rejects `foo/*/*` with `MultipleAsterisks`,
and in general an accepted refname contains an asterisk only when
`RefspecPattern` is set and that asterisk is the only one in the whole
refname. -/
theorem c4_check_format :
    checkFormat (bytesOfAscii "refs/heads/foo") ⟨false, false⟩ = .ok () ∧
    checkFormat (bytesOfAscii "foo") ⟨false, false⟩ =
      .error .OnlyOneLevel ∧
    checkFormat (bytesOfAscii "foo") ⟨true, false⟩ = .ok () ∧
    checkFormat (bytesOfAscii "foo/*") ⟨false, true⟩ = .ok () ∧
    checkFormat (bytesOfAscii "foo/*/*") ⟨false, true⟩ =
      .error .MultipleAsterisks ∧
    (∀ (refname : Bytes) (flags : RefnameFlags),
      checkFormat refname flags = .ok () → 42 ∈ refname →
      flags.refspecPattern = true ∧ refname.count 42 = 1) := by
  refine ⟨by decide, by decide, by decide, by decide, by decide, ?_⟩
  intro refname flags h hmem
  unfold checkFormat at h
  split at h
  · exact Except.noConfusion h
  · have hcnt := checkFormatLoop_count (refname.length + 1) refname
      flags.refspecPattern 0 h
    have hpos : 1 ≤ refname.count 42 := List.one_le_count_iff.mpr hmem
    cases hf : flags.refspecPattern
    · rw [hf] at hcnt
      simp at hcnt
      exact absurd hpos (by omega)
    · rw [hf] at hcnt
      simp at hcnt
      exact ⟨rfl, by omega⟩

/-- Witness for C4 at `foo/*` with the `RefspecPattern` flag. -/
theorem c4_check_format_witness :
    (⟨false, true⟩ : RefnameFlags).refspecPattern = true ∧
    (bytesOfAscii "foo/*").count 42 = 1 :=
  c4_check_format.2.2.2.2.2 (bytesOfAscii "foo/*") ⟨false, true⟩
    (by decide) (by decide)

/-- A successful `skip_data` leaves the data stream finished
(input.rs:206-247 sets `s.finished = true` on every `Ok` path). -/
theorem skipDataB_ok_finished {p : ParserSt} {m : Nat} {p' : ParserSt}
    (h : skipDataB p = (.ok m, p')) : p'.dataState.finished = true := by
  unfold skipDataB at h
  cases hsd : skipData p.input p.dataState with
  | mk r rest =>
    obtain ⟨inp, s⟩ := rest
    rw [hsd] at h
    dsimp only at h
    injection h with h1 h2
    subst h1
    unfold skipData at hsd
    split at hsd
    · exact POut.noConfusion (congrArg Prod.fst hsd)
    · split at hsd
      · rename_i hfin
        injection hsd with hr hrest
        injection hrest with hinp hs
        subst h2
        dsimp only
        rw [← hs]
        exact hfin
      · dsimp only at hsd
        split at hsd
        · rename_i inp1 s1
          injection hsd with hr hrest
          injection hrest with hinp hs
          subst h2
          dsimp only
          rw [← hs]
        · exact POut.noConfusion (congrArg Prod.fst hsd)
        · exact POut.noConfusion (congrArg Prod.fst hsd)

/-- C1: when the previous blob's data stream is unfinished at `next()`, the
parser fails with `Unfinished` if a `DataReader` was opened; otherwise it
skips the remaining payload with `skip_data` and parsing continues exactly
as a fresh `next()` on the post-skip state (which `skip_data` left
finished), so the following command is parsed; a failing skip propagates its
error. -/
theorem c1_next_unfinished_data (p : ParserSt)
    (h : p.dataState.finished = false) :
    (p.dataOpened = true → next p = (.err (.dataReader .Unfinished), p)) ∧
    (p.dataOpened = false →
      next p =
        match skipDataB p with
        | (.ok _, p') => next p'
        | (.err e, p') => (.err e, p')
        | (.panic, p') => (.panic, p')) := by
  constructor
  · intro hop
    unfold next
    rw [h, hop]
    rfl
  · intro hop
    unfold next
    rw [h, hop]
    cases hsk : skipDataB p with
    | mk r p' =>
      cases r with
      | ok m =>
        have hfin := skipDataB_ok_finished hsk
        dsimp only
        conv_rhs => unfold next
        rw [hfin]
        rfl
      | err e => rfl
      | panic => rfl

/-- Witness for C1: after parsing the counted blob of spec §8 scenario 1,
opening the reader and reading one byte (scenario 4) makes the following
`next()` fail with `Unfinished`; without opening (the never-opened case) the
unread 14-byte payload is skipped transparently and `next()` returns
`Done::Eof`. -/
theorem c1_next_unfinished_data_witness :
    next ps1r = (.err (.dataReader .Unfinished), ps1r) ∧
    next ps1 = (.ok (.done false), (next ps1).2) ∧
    (next ps1).2.input.r = [] := by
  refine ⟨(c1_next_unfinished_data ps1r (by decide)).1 (by decide), ?_, by decide⟩
  have h := (c1_next_unfinished_data ps1 (by decide)).2 (by decide)
  rw [h]
  decide

/-- An error result is trivially `BlobClean`. -/
theorem blobClean_err (e : StreamError) (p : ParserSt) :
    BlobClean (.err e, p) := by
  intro c p' hh _
  exact POut.noConfusion (congrArg Prod.fst hh)

/-- A panic result is trivially `BlobClean`. -/
theorem blobClean_panic (p : ParserSt) : BlobClean (.panic, p) := by
  intro c p' hh _
  exact POut.noConfusion (congrArg Prod.fst hh)

/-- A successful result that is not a `Blob` is trivially `BlobClean`. -/
theorem blobClean_ok_notBlob {c0 : Command} (p0 : ParserSt)
    (hc : c0.isBlob = false) : BlobClean (.ok c0, p0) := by
  intro c p' hh hb
  have h1 : c0 = c := by
    have := congrArg Prod.fst hh
    injection this
  subst h1
  rw [hc] at hb
  exact Bool.noConfusion hb

/-- `pbind` preserves `BlobClean` of the continuation. -/
theorem blobClean_pbind {α : Type} {x : POut α × ParserSt}
    {f : α → ParserSt → POut Command × ParserSt}
    (hf : ∀ a p, BlobClean (f a p)) : BlobClean (pbind x f) := by
  unfold pbind
  obtain ⟨r, px⟩ := x
  cases r with
  | ok a => exact hf a px
  | err e => exact blobClean_err e px
  | panic => exact blobClean_panic px

/-- `pbindV` preserves `BlobClean` of the continuation. -/
theorem blobClean_pbindV {α : Type} {x : POut α} {p : ParserSt}
    {f : α → ParserSt → POut Command × ParserSt}
    (hf : ∀ a p, BlobClean (f a p)) : BlobClean (pbindV x p f) := by
  unfold pbindV
  cases x with
  | ok a => exact hf a p
  | err e => exact blobClean_err e p
  | panic => exact blobClean_panic p

/-- `parse_commit` never produces a `Blob` command. -/
theorem parseCommit_bc (b : Bytes) (p : ParserSt) :
    BlobClean (parseCommit b p) := by
  unfold parseCommit
  apply blobClean_pbindV
  intro branch p
  apply blobClean_pbind
  intro mark p
  apply blobClean_pbind
  intro oid p
  apply blobClean_pbind
  intro author p
  apply blobClean_pbind
  intro committer? p
  cases committer? with
  | none => exact blobClean_err _ _
  | some committer =>
    apply blobClean_pbind
    intro encoding p
    apply blobClean_pbind
    intro message? p
    cases message? with
    | none => exact blobClean_err _ _
    | some message =>
      apply blobClean_pbind
      intro fromRef p
      apply blobClean_pbind
      intro merge p
      exact blobClean_ok_notBlob _ rfl

/-- `parse_tag` never produces a `Blob` command. -/
theorem parseTag_bc (b : Bytes) (p : ParserSt) : BlobClean (parseTag b p) := by
  unfold parseTag
  apply blobClean_pbindV
  intro name p
  apply blobClean_pbind
  intro mark p
  apply blobClean_pbind
  intro fromRef? p
  cases fromRef? with
  | none => exact blobClean_err _ _
  | some fromRef =>
    apply blobClean_pbind
    intro oid p
    apply blobClean_pbind
    intro tagger p
    apply blobClean_pbind
    intro message? p
    cases message? with
    | none => exact blobClean_err _ _
    | some message => exact blobClean_ok_notBlob _ rfl

/-- `parse_reset` never produces a `Blob` command. -/
theorem parseReset_bc (b : Bytes) (p : ParserSt) :
    BlobClean (parseReset b p) := by
  unfold parseReset
  apply blobClean_pbindV
  intro branch p
  apply blobClean_pbind
  intro fromRef p
  exact blobClean_ok_notBlob _ rfl

/-- `parse_ls` never produces a `Blob` command. -/
theorem parseLsTop_bc (b : Bytes) (p : ParserSt) :
    BlobClean (parseLsTop b p) := by
  unfold parseLsTop
  apply blobClean_pbindV
  intro rp p
  cases rp.1 with
  | none => exact blobClean_panic _
  | some root => exact blobClean_ok_notBlob _ rfl

/-- `parse_cat_blob` never produces a `Blob` command. -/
theorem parseCatBlob_bc (b : Bytes) (p : ParserSt) :
    BlobClean (parseCatBlob b p) := by
  unfold parseCatBlob
  apply blobClean_pbindV
  intro blob p
  exact blobClean_ok_notBlob _ rfl

/-- `parse_get_mark` never produces a `Blob` command. -/
theorem parseGetMark_bc (b : Bytes) (p : ParserSt) :
    BlobClean (parseGetMark b p) := by
  unfold parseGetMark
  apply blobClean_pbindV
  intro m p
  exact blobClean_ok_notBlob _ rfl

/-- `parse_checkpoint` never produces a `Blob` command. -/
theorem parseCheckpoint_bc (p : ParserSt) : BlobClean (parseCheckpoint p) :=
  blobClean_ok_notBlob _ rfl

/-- `parse_alias` never produces a `Blob` command. -/
theorem parseAlias_bc (p : ParserSt) : BlobClean (parseAlias p) := by
  unfold parseAlias
  apply blobClean_pbind
  intro mark? p
  cases mark? with
  | none => exact blobClean_err _ _
  | some mark =>
    apply blobClean_pbind
    intro toRef? p
    cases toRef? with
    | none => exact blobClean_err _ _
    | some toRef => exact blobClean_ok_notBlob _ rfl

/-- `parse_progress` never produces a `Blob` command. -/
theorem parseProgress_bc (b : Bytes) (p : ParserSt) :
    BlobClean (parseProgress b p) :=
  blobClean_ok_notBlob _ rfl

/-- `parse_feature` never produces a `Blob` command. -/
theorem parseFeature_bc (b : Bytes) (p : ParserSt) :
    BlobClean (parseFeature b p) := by
  unfold parseFeature
  apply blobClean_pbindV
  intro f p
  exact blobClean_ok_notBlob _ rfl

/-- `Parser::parse_option` only yields `Command::Option` values. -/
theorem parseOptionArg_notBlob {b : Bytes} {c : Command}
    (h : parseOptionArg b = .ok c) : c.isBlob = false := by
  unfold parseOptionArg at h
  cases hd : dropPfx (bytesOfAscii "git ") b <;> rw [hd] at h
  · injection h with h
    subst h
    rfl
  · dsimp only at h
    cases hg : optionGitParse _ <;> rw [hg] at h <;>
      simp only [POut.map] at h
    · injection h with h
      subst h
      rfl
    · exact POut.noConfusion h
    · exact POut.noConfusion h

/-- `parse_option` never produces a `Blob` command. -/
theorem parseOption_bc (b : Bytes) (p : ParserSt) :
    BlobClean (parseOption b p) := by
  unfold parseOption
  unfold pbindV
  cases hx : parseOptionArg b with
  | ok c => exact blobClean_ok_notBlob _ (parseOptionArg_notBlob hx)
  | err e => exact blobClean_err _ _
  | panic => exact blobClean_panic _

/-- `parse_blob` returns its `Blob` with the `data_opened` flag cleared by
`DataState::init`/`set`. -/
theorem parseBlob_bc (p : ParserSt) : BlobClean (parseBlob p) := by
  unfold parseBlob
  apply blobClean_pbind
  intro mark p
  apply blobClean_pbind
  intro oid p
  apply blobClean_pbind
  intro hdr? p
  cases hdr? with
  | none => exact blobClean_err _ _
  | some hdr =>
    intro c p' hh _
    have h2 := congrArg Prod.snd hh
    dsimp only at h2
    rw [← h2]

/-- Every command parsed by the dispatch of `Parser::next` is `BlobClean`:
only `parse_blob` returns a `Blob`, and it clears `data_opened`. -/
theorem nextInner_bc (p : ParserSt) : BlobClean (nextInner p) := by
  unfold nextInner
  cases hnd : nextDirective p with
  | mk l? p1 =>
    cases l? with
    | none => exact blobClean_ok_notBlob _ rfl
    | some line =>
      dsimp only
      split
      · exact parseBlob_bc _
      · split
        · exact parseCommit_bc _ _
        · split
          · exact parseTag_bc _ _
          · split
            · exact parseReset_bc _ _
            · split
              · exact parseLsTop_bc _ _
              · split
                · exact parseCatBlob_bc _ _
                · split
                  · exact parseGetMark_bc _ _
                  · split
                    · exact parseCheckpoint_bc _
                    · split
                      · exact blobClean_ok_notBlob _ rfl
                      · split
                        · exact parseAlias_bc _
                        · split
                          · exact parseProgress_bc _ _
                          · split
                            · exact parseFeature_bc _ _
                            · split
                              · exact parseOption_bc _ _
                              · split
                                · exact blobClean_err _ _
                                · exact blobClean_err _ _

/-- `Parser::next` is `BlobClean`. -/
theorem next_bc (p : ParserSt) : BlobClean (next p) := by
  unfold next
  split
  · exact nextInner_bc p
  · split
    · exact blobClean_err _ _
    · cases hsk : skipDataB p with
      | mk r p' =>
        cases r with
        | ok m => exact nextInner_bc p'
        | err e => exact blobClean_err _ _
        | panic => exact blobClean_panic _

/-- C2: after `next()` returns a `Blob`, the parser's `data_opened` flag is
clear (parsing the blob's data header runs `DataState::set`, which stores
`false` into the flag), so the first `open()` on the blob's data stream
succeeds and sets the flag, and every `open()` while the flag is set fails
with `AlreadyOpened` and leaves the flag set — hence `open()` succeeds
exactly once per parsed blob. -/
theorem c2_blob_single_open :
    (∀ p c p', next p = (.ok c, p') → c.isBlob = true →
      p'.dataOpened = false) ∧
    (∀ p : ParserSt, p.dataOpened = false →
      openDataStream p = (.ok (), { p with dataOpened := true })) ∧
    (∀ p : ParserSt, p.dataOpened = true →
      openDataStream p = (.err (.dataReader .AlreadyOpened), p)) := by
  refine ⟨fun p c p' h hb => next_bc p c p' h hb, ?_, ?_⟩
  · intro p h
    unfold openDataStream
    rw [h]
    rfl
  · intro p h
    unfold openDataStream
    rw [h]
    have hp : { p with dataOpened := true } = p := by
      cases p with
      | mk input poolBack unread dataOpened dataState =>
        dsimp only at h
        rw [h]
    rw [hp]
    rfl

/-- Witness for C2 on the concrete counted blob of spec §8 scenario 1: the
parsed blob leaves the flag clear, the first `open()` succeeds, and the
second fails with `AlreadyOpened`. -/
theorem c2_blob_single_open_witness :
    ps1.dataOpened = false ∧
    openDataStream ps1 = (.ok (), ps1o) ∧
    openDataStream ps1o = (.err (.dataReader .AlreadyOpened), ps1o) := by
  refine ⟨c2_blob_single_open.1 ps0
      (.blob (some 42) (some (bytesOfAscii "3141")) (.counted 14)) ps1
      (by decide) (by decide),
    ?_, ?_⟩
  · have h := c2_blob_single_open.2.1 ps1 (by decide)
    rw [h]
    decide
  · have h := c2_blob_single_open.2.2 ps1o (by decide)
    rw [h]

end FE
